import Mathlib

/-!
Shallow embedding of the miku_chess rule engine
(src/backend/game_logic.py and src/backend/game_state.py).

Positions are (row, col) pairs of integers; the board is a 10 by 9 grid of
optional pieces, represented as a list of rows.  Out-of-range reads return
none and out-of-range writes are no-ops, matching the guarded access paths
the engine actually exercises (the spec requires read-only predicates to
degrade to empty/false on out-of-range input).
-/

set_option maxHeartbeats 1000000

/-- Piece types, from game_logic.PieceType. -/
inductive PieceType where
  | attack
  | defense
  | support
  | magic
  | general
deriving DecidableEq, Repr

/-- Teams, from game_logic.Team.  Blue occupies rows 0-4, Red rows 5-9. -/
inductive Team where
  | blue
  | red
deriving DecidableEq, Repr

/-- A piece, from game_logic.Piece. -/
structure Piece where
  piece_type : PieceType
  team : Team
deriving DecidableEq, Repr

/-- A requested move, from game_logic.Move. -/
structure Move where
  from_pos : Int × Int
  to_pos : Int × Int
deriving DecidableEq, Repr

/-- The board: 10 rows of 9 cells, from the Python list-of-lists board. -/
abbrev Board := List (List (Option Piece))

/-- game_logic.is_valid_position. -/
def is_valid_position (r c : Int) : Bool :=
  decide (0 ≤ r ∧ r ≤ 9 ∧ 0 ≤ c ∧ c ≤ 8)

/-- Guarded cell read (Python board[row][col] on the validated paths). -/
def pieceAt (b : Board) (r c : Int) : Option Piece :=
  if is_valid_position r c then (b.getD r.toNat []).getD c.toNat none else none

/-- Guarded cell write (Python board[row][col] = v on the validated paths). -/
def setCell (b : Board) (p : Int × Int) (v : Option Piece) : Board :=
  if is_valid_position p.1 p.2 then
    b.set p.1.toNat ((b.getD p.1.toNat []).set p.2.toNat v)
  else b

/-- game_logic.is_in_blue_zone: rows 0-4. -/
def is_in_blue_zone (r : Int) : Bool :=
  decide (0 ≤ r ∧ r ≤ 4)

/-- game_logic.is_in_red_zone: rows 5-9. -/
def is_in_red_zone (r : Int) : Bool :=
  decide (5 ≤ r ∧ r ≤ 9)

/-- game_logic.get_blue_palace: rows 0-2, cols 3-5, in Python loop order. -/
def get_blue_palace : List (Int × Int) :=
  [(0,3),(0,4),(0,5),(1,3),(1,4),(1,5),(2,3),(2,4),(2,5)]

/-- game_logic.get_red_palace: rows 7-9, cols 3-5. -/
def get_red_palace : List (Int × Int) :=
  [(7,3),(7,4),(7,5),(8,3),(8,4),(8,5),(9,3),(9,4),(9,5)]

/-- game_logic.get_blue_magic_zone: rows 2-4, cols 3-5. -/
def get_blue_magic_zone : List (Int × Int) :=
  [(2,3),(2,4),(2,5),(3,3),(3,4),(3,5),(4,3),(4,4),(4,5)]

/-- game_logic.get_red_magic_zone: rows 5-7, cols 3-5. -/
def get_red_magic_zone : List (Int × Int) :=
  [(5,3),(5,4),(5,5),(6,3),(6,4),(6,5),(7,3),(7,4),(7,5)]

/-- game_logic.is_moving_backward: Blue retreats toward smaller rows,
Red toward larger rows. -/
def is_moving_backward (fromPos toPos : Int × Int) (team : Team) : Bool :=
  match team with
  | .blue => decide (toPos.1 < fromPos.1)
  | .red => decide (toPos.1 > fromPos.1)

/-- game_logic.is_diagonal. -/
def is_diagonal (fromPos toPos : Int × Int) : Bool :=
  decide ((fromPos.1 - toPos.1).natAbs = (fromPos.2 - toPos.2).natAbs ∧
          fromPos.1 ≠ toPos.1)

/-- game_logic.is_moving_diagonal_backward. -/
def is_moving_diagonal_backward (fromPos toPos : Int × Int) (team : Team) : Bool :=
  is_diagonal fromPos toPos && is_moving_backward fromPos toPos team

/-- One sliding ray of the Python while-loops in _get_attack_moves,
_get_defense_moves and _get_support_moves.  Walks from the given cell in
direction d, collecting empty cells; on the first occupied cell it includes
the cell only when canCapture holds and the occupant is an enemy, then
stops.  The fuel bound 16 exceeds any possible ray length on a 10 by 9
board, so the walk always leaves the board or hits a blocker first. -/
def rayWalk (b : Board) (team : Team) (canCapture : Bool) :
    Nat → Int × Int → Int × Int → List (Int × Int)
  | 0, _, _ => []
  | fuel + 1, p, d =>
    if is_valid_position p.1 p.2 then
      match pieceAt b p.1 p.2 with
      | none => p :: rayWalk b team canCapture fuel (p.1 + d.1, p.2 + d.2) d
      | some target => if canCapture && decide (target.team ≠ team) then [p] else []
    else []

/-- The four orthogonal directions, in Python order. -/
def dirsOrtho : List (Int × Int) := [(-1, 0), (1, 0), (0, -1), (0, 1)]

/-- The four diagonal directions, in Python order. -/
def dirsDiag : List (Int × Int) := [(-1, -1), (-1, 1), (1, -1), (1, 1)]

/-- game_logic.GameLogic._get_attack_moves: orthogonal rays; vertical rays
may capture an enemy, horizontal rays stop at any piece without capture. -/
def get_attack_moves (b : Board) (pos : Int × Int) (piece : Piece) :
    List (Int × Int) :=
  dirsOrtho.flatMap fun d =>
    rayWalk b piece.team (d.2 == 0) 16 (pos.1 + d.1, pos.2 + d.2) d

/-- game_logic.GameLogic._get_defense_moves: orthogonal rays; horizontal
rays may capture an enemy, vertical rays stop at any piece without capture. -/
def get_defense_moves (b : Board) (pos : Int × Int) (piece : Piece) :
    List (Int × Int) :=
  dirsOrtho.flatMap fun d =>
    rayWalk b piece.team (d.1 == 0) 16 (pos.1 + d.1, pos.2 + d.2) d

/-- game_logic.GameLogic._get_support_moves: diagonal rays, captures allowed. -/
def get_support_moves (b : Board) (pos : Int × Int) (piece : Piece) :
    List (Int × Int) :=
  dirsDiag.flatMap fun d =>
    rayWalk b piece.team true 16 (pos.1 + d.1, pos.2 + d.2) d

/-- game_logic.GameLogic._get_magic_moves: one orthogonal step inside the
team magic zone, destination must be empty. -/
def get_magic_moves (b : Board) (pos : Int × Int) (piece : Piece) :
    List (Int × Int) :=
  let zone := if piece.team = .blue then get_blue_magic_zone else get_red_magic_zone
  dirsOrtho.filterMap fun d =>
    let np : Int × Int := (pos.1 + d.1, pos.2 + d.2)
    if np ∈ zone ∧ pieceAt b np.1 np.2 = none then some np else none

/-- game_logic.GameLogic._get_general_moves: one orthogonal step inside the
team palace, destination must be empty. -/
def get_general_moves (b : Board) (pos : Int × Int) (piece : Piece) :
    List (Int × Int) :=
  let zone := if piece.team = .blue then get_blue_palace else get_red_palace
  dirsOrtho.filterMap fun d =>
    let np : Int × Int := (pos.1 + d.1, pos.2 + d.2)
    if np ∈ zone ∧ pieceAt b np.1 np.2 = none then some np else none

/-- The per-type raw rule dispatch of game_logic.GameLogic.get_valid_moves. -/
def raw_moves (b : Board) (pos : Int × Int) (piece : Piece) : List (Int × Int) :=
  match piece.piece_type with
  | .attack => get_attack_moves b pos piece
  | .defense => get_defense_moves b pos piece
  | .support => get_support_moves b pos piece
  | .magic => get_magic_moves b pos piece
  | .general => get_general_moves b pos piece

/-- The can_retreat computation shared by get_valid_moves and
is_general_in_check: a team may retreat while its own magic piece lives. -/
def team_can_retreat (t : Team) (blue_magic_alive red_magic_alive : Bool) : Bool :=
  if t = .blue ∧ blue_magic_alive = false then false
  else if t = .red ∧ red_magic_alive = false then false
  else true

/-- The retreat filter list comprehension shared by get_valid_moves and
is_general_in_check: drop backward and diagonal-backward destinations. -/
def retreat_filter (moves : List (Int × Int)) (pos : Int × Int) (t : Team)
    (canRetreat : Bool) : List (Int × Int) :=
  if canRetreat then moves
  else moves.filter fun m =>
    !(is_moving_backward pos m t) && !(is_moving_diagonal_backward pos m t)

/-- game_logic.GameLogic.get_valid_moves: per-type rule, then the retreat
filter, then the turn-11 zone-freeze and second-move short-circuits. -/
def get_valid_moves (b : Board) (pos : Int × Int) (current_team : Team)
    (blue_magic_alive red_magic_alive : Bool) (turn_number : Nat)
    (is_second_move : Bool) (frozen : List (Int × Int)) : List (Int × Int) :=
  match pieceAt b pos.1 pos.2 with
  | none => []
  | some piece =>
    if piece.team ≠ current_team then []
    else if pos ∈ frozen then []
    else
      let vm := retreat_filter (raw_moves b pos piece) pos piece.team
        (team_can_retreat piece.team blue_magic_alive red_magic_alive)
      if turn_number = 11 ∧ blue_magic_alive = true ∧ current_team = .red ∧
          is_in_blue_zone pos.1 = true then []
      else if is_second_move = true ∧ is_in_blue_zone pos.1 = true ∧
          blue_magic_alive = true then []
      else vm

/-- All board cells in the row-major order of the Python double loops. -/
def allPositions : List (Int × Int) :=
  (List.range 10).flatMap fun r =>
    (List.range 9).map fun c => (Int.ofNat r, Int.ofNat c)

/-- game_logic.GameLogic.is_general_in_check, locating the General: first
cell in row-major order holding the team General. -/
def findGeneral (b : Board) (team : Team) : Option (Int × Int) :=
  allPositions.find? fun p =>
    match pieceAt b p.1 p.2 with
    | some pc => pc.team = team && pc.piece_type = .general
    | none => false

/-- The enemy-team computation of is_general_in_check. -/
def enemyOf (team : Team) : Team :=
  if team = .blue then .red else .blue

/-- The attack-capable move dispatch inside is_general_in_check: Attack,
Defense and Support use their per-type rule; Magic and General cannot
capture and are skipped (none). -/
def capture_moves (b : Board) (pos : Int × Int) (pc : Piece) :
    Option (List (Int × Int)) :=
  match pc.piece_type with
  | .attack => some (get_attack_moves b pos pc)
  | .defense => some (get_defense_moves b pos pc)
  | .support => some (get_support_moves b pos pc)
  | .magic => none
  | .general => none

/-- game_logic.GameLogic.is_general_in_check. -/
def is_general_in_check (b : Board) (team : Team)
    (blue_magic_alive red_magic_alive : Bool) : Bool :=
  match findGeneral b team with
  | none => true
  | some gp =>
    let enemy := enemyOf team
    allPositions.any fun p =>
      match pieceAt b p.1 p.2 with
      | some pc =>
        if pc.team = enemy then
          match capture_moves b p pc with
          | some ms =>
            decide (gp ∈ retreat_filter ms p enemy
              (team_can_retreat enemy blue_magic_alive red_magic_alive))
          | none => false
        else false
      | none => false

/-- The hypothetical board of is_checkmate: destination overwritten with
the value at the source, source emptied. -/
def hypoBoard (b : Board) (src dst : Int × Int) : Board :=
  setCell (setCell b dst (pieceAt b src.1 src.2)) src none

/-- game_logic.GameLogic.is_checkmate. -/
def is_checkmate (b : Board) (team : Team)
    (blue_magic_alive red_magic_alive : Bool) (turn_number : Nat)
    (frozen : List (Int × Int)) : Bool :=
  if is_general_in_check b team blue_magic_alive red_magic_alive = false then
    false
  else
    !(allPositions.any fun src =>
      match pieceAt b src.1 src.2 with
      | some pc =>
        if pc.team = team then
          (get_valid_moves b src team blue_magic_alive red_magic_alive
              turn_number false frozen).any fun dst =>
            !(is_general_in_check (hypoBoard b src dst) team
                blue_magic_alive red_magic_alive)
        else false
      | none => false)

/-- game_logic.GameLogic.is_stalemate: the team has no legal move at all. -/
def is_stalemate (b : Board) (team : Team)
    (blue_magic_alive red_magic_alive : Bool) (turn_number : Nat)
    (frozen : List (Int × Int)) : Bool :=
  !(allPositions.any fun p =>
    match pieceAt b p.1 p.2 with
    | some pc =>
      if pc.team = team then
        !(get_valid_moves b p team blue_magic_alive red_magic_alive
            turn_number false frozen).isEmpty
      else false
    | none => false)

/-- game_state.GameStatus. -/
inductive GameStatus where
  | waiting
  | playing
  | blueWin
  | redWin
  | draw
deriving DecidableEq, Repr

/-- game_state.GameMode. -/
inductive GameMode where
  | local
  | online
  | ai
deriving DecidableEq, Repr

/-- One entry of game_state.GameState.move_history (the Python dict with
keys turn, team, move, captured). -/
structure HistEntry where
  turn : Nat
  team : Team
  move : Move
  captured : Option Piece
deriving DecidableEq, Repr

/-- game_state.GameState.  The uuid game_id is host-level randomness and is
not part of the rule engine, so it is omitted here; everything else is kept. -/
structure GameState where
  mode : GameMode
  status : GameStatus
  board : Board
  current_team : Team
  turn_number : Nat
  blue_magic_alive : Bool
  red_magic_alive : Bool
  red_double_move_active : Bool
  red_first_move_done : Bool
  red_first_move_pos : Option (Int × Int)
  move_history : List HistEntry
  blue_player_id : Option String
  red_player_id : Option String
deriving DecidableEq, Repr

/-- The rejection reasons of game_state.GameManager.make_move and
skip_second_move (the Chinese error strings of the source, as a closed
enumeration). -/
inductive MoveError where
  | gameNotInProgress
  | notYourTurn
  | noPieceAtSource
  | wrongTeam
  | secondMoveWrongPiece
  | illegalDestination
deriving DecidableEq, Repr

/-- The result dict of game_state.GameManager.make_move.  Keys absent from
the Python dict are modelled as none / false defaults. -/
structure MoveResult where
  success : Bool
  error : Option MoveError
  captured : Option Piece
  game_status : Option GameStatus
  double_move : Bool
  waiting_second_move : Bool
deriving DecidableEq, Repr

/-- A failure result of make_move: success false with the given reason. -/
def failRes (e : MoveError) : MoveResult :=
  { success := false, error := some e, captured := none, game_status := none
  , double_move := false, waiting_second_move := false }

/-- game_state.create_initial_board. -/
def create_initial_board : Board :=
  [ [ some ⟨.attack, .blue⟩, some ⟨.attack, .blue⟩, some ⟨.attack, .blue⟩
    , some ⟨.support, .blue⟩, some ⟨.general, .blue⟩, some ⟨.support, .blue⟩
    , some ⟨.attack, .blue⟩, some ⟨.attack, .blue⟩, some ⟨.attack, .blue⟩ ]
  , List.replicate 9 none
  , [ some ⟨.defense, .blue⟩, some ⟨.defense, .blue⟩, some ⟨.defense, .blue⟩
    , some ⟨.defense, .blue⟩, some ⟨.magic, .blue⟩, some ⟨.defense, .blue⟩
    , some ⟨.defense, .blue⟩, some ⟨.defense, .blue⟩, some ⟨.defense, .blue⟩ ]
  , List.replicate 9 none
  , List.replicate 9 none
  , List.replicate 9 none
  , List.replicate 9 none
  , [ some ⟨.defense, .red⟩, some ⟨.defense, .red⟩, some ⟨.defense, .red⟩
    , some ⟨.defense, .red⟩, some ⟨.magic, .red⟩, some ⟨.defense, .red⟩
    , some ⟨.defense, .red⟩, some ⟨.defense, .red⟩, some ⟨.defense, .red⟩ ]
  , List.replicate 9 none
  , [ some ⟨.attack, .red⟩, some ⟨.attack, .red⟩, some ⟨.attack, .red⟩
    , some ⟨.support, .red⟩, some ⟨.general, .red⟩, some ⟨.support, .red⟩
    , some ⟨.attack, .red⟩, some ⟨.attack, .red⟩, some ⟨.attack, .red⟩ ] ]

/-- game_state.create_game (the uuid game_id omitted, see GameState). -/
def create_game (mode : GameMode) (player_id : Option String) : GameState :=
  { mode := mode
  , status := if mode = .online then .waiting else .playing
  , board := create_initial_board
  , current_team := .red
  , turn_number := 1
  , blue_magic_alive := true
  , red_magic_alive := true
  , red_double_move_active := false
  , red_first_move_done := false
  , red_first_move_pos := none
  , move_history := []
  , blue_player_id := none
  , red_player_id := if mode = .online then player_id else none }

/-- game_state.GameManager.get_frozen_positions: on turn 11 with Blue magic
alive and Red to move, every Red piece in the Blue zone (rows 0-4). -/
def get_frozen_positions (game : GameState) : List (Int × Int) :=
  if game.turn_number = 11 ∧ game.blue_magic_alive = true ∧
      game.current_team = .red then
    allPositions.filter fun p =>
      decide (p.1 < 5) &&
        (match pieceAt game.board p.1 p.2 with
          | some pc => pc.team = .red
          | none => false)
  else []

/-- Steps 11-12 of the state machine: the turn switch at the end of
game_state.GameManager.make_move (team swap, turn increment on the Blue
half-turn, double-move reset) followed by the checkmate / stalemate
evaluation guarded by status still playing. -/
def finishTurn (game : GameState) (res : MoveResult) : MoveResult × GameState :=
  let team2 : Team := if game.current_team = .red then .blue else .red
  let turn2 : Nat :=
    if game.current_team = .red then game.turn_number else game.turn_number + 1
  let game2 : GameState :=
    { game with
      current_team := team2,
      turn_number := turn2,
      red_double_move_active := false,
      red_first_move_done := false,
      red_first_move_pos := none }
  if game2.status = .playing then
    let nf := get_frozen_positions game2
    if is_checkmate game2.board game2.current_team game2.blue_magic_alive
        game2.red_magic_alive game2.turn_number nf then
      let st : GameStatus :=
        if game2.current_team = .blue then .redWin else .blueWin
      ({ res with game_status := some st }, { game2 with status := st })
    else if is_stalemate game2.board game2.current_team game2.blue_magic_alive
        game2.red_magic_alive game2.turn_number nf then
      ({ res with game_status := some .draw }, { game2 with status := .draw })
    else (res, game2)
  else (res, game2)

/-- Steps 6-10 of game_state.GameManager.make_move, after all validation has
passed (piece is the one at the source): relocation, capture side effects on
the magic flags and the status, history append, then the turn-11 double-move
evaluation or the normal turn advance. -/
def execValidMove (game : GameState) (move : Move) (piece : Piece) :
    MoveResult × GameState :=
  let captured := pieceAt game.board move.to_pos.1 move.to_pos.2
  let board1 := setCell (setCell game.board move.to_pos (some piece))
    move.from_pos none
  let bma1 := match captured with
    | some c => if c.piece_type = .magic ∧ c.team = .blue then false
                else game.blue_magic_alive
    | none => game.blue_magic_alive
  let rma1 := match captured with
    | some c => if c.piece_type = .magic ∧ c.team = .red then false
                else game.red_magic_alive
    | none => game.red_magic_alive
  let status1 := match captured with
    | some c => if c.piece_type = .general then
                  (if c.team = .blue then GameStatus.redWin else GameStatus.blueWin)
                else game.status
    | none => game.status
  let game1 : GameState :=
    { game with
      board := board1,
      blue_magic_alive := bma1,
      red_magic_alive := rma1,
      status := status1,
      move_history := game.move_history ++
        [⟨game.turn_number, game.current_team, move, captured⟩] }
  let baseRes : MoveResult :=
    { success := true, error := none, captured := captured
    , game_status := some status1, double_move := false
    , waiting_second_move := false }
  if game1.turn_number = 11 ∧ game1.current_team = .red ∧
      game1.red_magic_alive = true ∧ game1.status = .playing then
    if game1.red_first_move_done = false then
      if is_in_red_zone move.from_pos.1 = true ∧
          is_in_red_zone move.to_pos.1 = true then
        ({ baseRes with double_move := true, waiting_second_move := true },
         { game1 with
           red_double_move_active := true,
           red_first_move_done := true,
           red_first_move_pos := some move.to_pos })
      else finishTurn game1 baseRes
    else finishTurn game1 baseRes
  else finishTurn game1 baseRes

/-- game_state.GameManager.make_move on a single game record (the manager
game_id lookup is registry bookkeeping outside the rule engine). -/
def make_move (game : GameState) (move : Move) (player_id : Option String) :
    MoveResult × GameState :=
  if game.status ≠ .playing then (failRes .gameNotInProgress, game)
  else if game.mode = .online ∧ player_id.isSome = true ∧
      ((game.current_team = .red ∧ player_id ≠ game.red_player_id) ∨
       (game.current_team = .blue ∧ player_id ≠ game.blue_player_id)) then
    (failRes .notYourTurn, game)
  else
    match pieceAt game.board move.from_pos.1 move.from_pos.2 with
    | none => (failRes .noPieceAtSource, game)
    | some piece =>
      if piece.team ≠ game.current_team then (failRes .wrongTeam, game)
      else
        let frozen := get_frozen_positions game
        let is_second := game.red_first_move_done && game.red_double_move_active
        if is_second = true ∧ game.red_first_move_pos ≠ some move.from_pos then
          (failRes .secondMoveWrongPiece, game)
        else if move.to_pos ∉ get_valid_moves game.board move.from_pos
            game.current_team game.blue_magic_alive game.red_magic_alive
            game.turn_number is_second frozen then
          (failRes .illegalDestination, game)
        else execValidMove game move piece

/-- game_state.GameManager.skip_second_move on a single game record.  The
Bool is the success flag of the returned dict. -/
def skip_second_move (game : GameState) : Bool × GameState :=
  if game.red_double_move_active = false ∨ game.red_first_move_done = false then
    (false, game)
  else
    (true,
     { game with
       current_team := .blue,
       red_double_move_active := false,
       red_first_move_done := false,
       red_first_move_pos := none })



/-! ## Basic lemmas about positions and board access -/

/-- Unfolding of the validity predicate. -/
theorem is_valid_position_iff (r c : Int) :
    is_valid_position r c = true ↔ (0 ≤ r ∧ r ≤ 9 ∧ 0 ≤ c ∧ c ≤ 8) := by
  simp [is_valid_position]

/-- allPositions enumerates exactly the in-bounds cells. -/
theorem mem_allPositions (p : Int × Int) :
    p ∈ allPositions ↔ (0 ≤ p.1 ∧ p.1 ≤ 9 ∧ 0 ≤ p.2 ∧ p.2 ≤ 8) := by
  constructor
  · intro h
    unfold allPositions at h
    obtain ⟨r, hr, h2⟩ := List.mem_flatMap.1 h
    obtain ⟨c, hc, hp⟩ := List.mem_map.1 h2
    rw [List.mem_range] at hr hc
    refine ⟨?_, ?_, ?_, ?_⟩ <;> rw [← hp] <;>
      simp only [Int.ofNat_eq_natCast] <;> omega
  · intro hb
    unfold allPositions
    refine List.mem_flatMap.2 ⟨p.1.toNat, List.mem_range.2 (by omega),
      List.mem_map.2 ⟨p.2.toNat, List.mem_range.2 (by omega), ?_⟩⟩
    show (Int.ofNat p.1.toNat, Int.ofNat p.2.toNat) = p
    obtain ⟨x, y⟩ := p
    dsimp only at hb ⊢
    rw [Int.ofNat_eq_natCast, Int.ofNat_eq_natCast,
      Int.toNat_of_nonneg hb.1, Int.toNat_of_nonneg hb.2.2.1]

/-- A cell that holds a piece is in bounds. -/
theorem pieceAt_valid {b : Board} {r c : Int} {pc : Piece}
    (h : pieceAt b r c = some pc) : is_valid_position r c = true := by
  unfold pieceAt at h
  split at h
  · assumption
  · exact absurd h (by simp)

/-- A cell that holds a piece is among allPositions. -/
theorem mem_allPositions_of_pieceAt {b : Board} {p : Int × Int} {pc : Piece}
    (h : pieceAt b p.1 p.2 = some pc) : p ∈ allPositions := by
  rw [mem_allPositions]
  exact (is_valid_position_iff p.1 p.2).1 (pieceAt_valid h)

/-! ## Lemmas about the state-machine helpers -/

/-- finishTurn preserves the success flag of the result. -/
theorem finishTurn_fst_success (g : GameState) (r : MoveResult) :
    (finishTurn g r).1.success = r.success := by
  unfold finishTurn
  dsimp only
  repeat' split <;> try rfl

/-- finishTurn preserves the captured piece of the result. -/
theorem finishTurn_fst_captured (g : GameState) (r : MoveResult) :
    (finishTurn g r).1.captured = r.captured := by
  unfold finishTurn
  dsimp only
  repeat' split <;> try rfl

/-- finishTurn does not change the magic-alive flags. -/
theorem finishTurn_flags (g : GameState) (r : MoveResult) :
    (finishTurn g r).2.blue_magic_alive = g.blue_magic_alive ∧
    (finishTurn g r).2.red_magic_alive = g.red_magic_alive := by
  unfold finishTurn
  dsimp only
  repeat' split <;> try exact ⟨rfl, rfl⟩

/-- An executed (fully validated) move always reports success. -/
theorem execValidMove_success (g : GameState) (m : Move) (pc : Piece) :
    (execValidMove g m pc).1.success = true := by
  unfold execValidMove
  dsimp only
  repeat' split
  all_goals first
    | rfl
    | rw [finishTurn_fst_success]

/-- make_move either rejects, returning the unchanged state, or finds the
piece at the source and runs the validated-move execution. -/
theorem make_move_eq_or (g : GameState) (m : Move) (pid : Option String) :
    (∃ e, make_move g m pid = (failRes e, g)) ∨
    (∃ pc, pieceAt g.board m.from_pos.1 m.from_pos.2 = some pc ∧
      make_move g m pid = execValidMove g m pc) := by
  unfold make_move
  dsimp only
  split
  · exact Or.inl ⟨_, rfl⟩
  split
  · exact Or.inl ⟨_, rfl⟩
  split
  · exact Or.inl ⟨_, rfl⟩
  case _ piece heq =>
    split
    · exact Or.inl ⟨_, rfl⟩
    split
    · exact Or.inl ⟨_, rfl⟩
    split
    · exact Or.inl ⟨_, rfl⟩
    · exact Or.inr ⟨piece, heq, rfl⟩

/-! ## C2: rejected requests never mutate the match state -/

/-- C2: every request that make_move rejects (game not in progress, wrong
player, no piece at the source, wrong team, second-move request from a
different piece, illegal destination) and every request that
skip_second_move rejects (no second move pending) returns a failure result
and leaves the entire game state unchanged. -/
theorem rejected_requests_leave_state_unchanged :
    (∀ (g : GameState) (m : Move) (pid : Option String),
      (make_move g m pid).1.success = false → (make_move g m pid).2 = g) ∧
    (∀ g : GameState,
      (skip_second_move g).1 = false → (skip_second_move g).2 = g) := by
  constructor
  · intro g m pid h
    rcases make_move_eq_or g m pid with ⟨e, he⟩ | ⟨pc, _, he⟩
    · rw [he]
    · rw [he, execValidMove_success g m pc] at h
      exact absurd h (by simp)
  · intro g h
    by_cases hc : (g.red_double_move_active = false ∨ g.red_first_move_done = false)
    · simp [skip_second_move, hc]
    · simp [skip_second_move, hc] at h

/-- Witness for C2: a wrong-team request on the initial game and a skip with
no second move pending are both rejected and leave the state unchanged. -/
theorem rejected_requests_leave_state_unchanged_witness :
    ((make_move (create_game .local none) ⟨(0, 0), (1, 0)⟩ none).1.success = false ∧
     (make_move (create_game .local none) ⟨(0, 0), (1, 0)⟩ none).2 =
       create_game .local none) ∧
    ((skip_second_move (create_game .local none)).1 = false ∧
     (skip_second_move (create_game .local none)).2 = create_game .local none) :=
  ⟨⟨by decide,
    rejected_requests_leave_state_unchanged.1 (create_game .local none)
      ⟨(0, 0), (1, 0)⟩ none (by decide)⟩,
   ⟨by decide,
    rejected_requests_leave_state_unchanged.2 (create_game .local none)
      (by decide)⟩⟩

/-! ## C10: frame of a successful skip_second_move -/

/-- C10: when a second move is pending, skip_second_move succeeds and
changes only current_team (to Blue) and the three double-move sub-state
fields (reset); board, turn_number, magic flags, status and history are
untouched, and no checkmate or stalemate evaluation runs (the status field
is returned unchanged whatever the position). -/
theorem skip_second_move_frame (g : GameState)
    (h1 : g.red_double_move_active = true)
    (h2 : g.red_first_move_done = true) :
    skip_second_move g =
      (true,
       { g with
         current_team := Team.blue,
         red_double_move_active := false,
         red_first_move_done := false,
         red_first_move_pos := none }) := by
  unfold skip_second_move
  rw [h1, h2]
  simp

/-- A state with a pending second move, for the C10 witness. -/
def pendingExample : GameState :=
  { create_game .local none with
    turn_number := 11,
    red_double_move_active := true,
    red_first_move_done := true,
    red_first_move_pos := some (8, 0) }

/-- Witness for C10 at a concrete pending state. -/
theorem skip_second_move_frame_witness :
    skip_second_move pendingExample =
      (true,
       { pendingExample with
         current_team := Team.blue,
         red_double_move_active := false,
         red_first_move_done := false,
         red_first_move_pos := none }) :=
  skip_second_move_frame pendingExample rfl rfl

/-! ## C9: the initial match state -/

/-- C9 counterexample: a match created in online mode starts with status
Waiting, not Playing, so the claim that every match created by create_game
starts with status Playing fails. -/
theorem create_game_online_starts_waiting :
    (create_game .online none).status = GameStatus.waiting ∧
    (create_game .online none).status ≠ GameStatus.playing := by
  decide

/-- C9 (amended): every match created by create_game starts with the fixed
layout (6 Attack pieces on the outer columns of each back rank, 2 Support
pieces flanking a single General on the center three columns, 8 Defense
pieces two rows inward with 1 Magic piece at that rank center, all other
cells empty), current_team Red, turn_number 1, both magic flags true; the
status is Playing for local and AI matches and Waiting for online matches. -/
theorem create_game_initial_state (mode : GameMode) (pid : Option String) :
    (∀ c ∈ ([0, 1, 2, 6, 7, 8] : List Int),
      pieceAt (create_game mode pid).board 0 c = some ⟨.attack, .blue⟩ ∧
      pieceAt (create_game mode pid).board 9 c = some ⟨.attack, .red⟩) ∧
    (∀ c ∈ ([3, 5] : List Int),
      pieceAt (create_game mode pid).board 0 c = some ⟨.support, .blue⟩ ∧
      pieceAt (create_game mode pid).board 9 c = some ⟨.support, .red⟩) ∧
    pieceAt (create_game mode pid).board 0 4 = some ⟨.general, .blue⟩ ∧
    pieceAt (create_game mode pid).board 9 4 = some ⟨.general, .red⟩ ∧
    (∀ c ∈ ([0, 1, 2, 3, 5, 6, 7, 8] : List Int),
      pieceAt (create_game mode pid).board 2 c = some ⟨.defense, .blue⟩ ∧
      pieceAt (create_game mode pid).board 7 c = some ⟨.defense, .red⟩) ∧
    pieceAt (create_game mode pid).board 2 4 = some ⟨.magic, .blue⟩ ∧
    pieceAt (create_game mode pid).board 7 4 = some ⟨.magic, .red⟩ ∧
    (∀ p ∈ allPositions,
      p.1 = 1 ∨ p.1 = 3 ∨ p.1 = 4 ∨ p.1 = 5 ∨ p.1 = 6 ∨ p.1 = 8 →
      pieceAt (create_game mode pid).board p.1 p.2 = none) ∧
    (create_game mode pid).current_team = Team.red ∧
    (create_game mode pid).turn_number = 1 ∧
    (create_game mode pid).blue_magic_alive = true ∧
    (create_game mode pid).red_magic_alive = true ∧
    (create_game mode pid).status =
      (if mode = .online then GameStatus.waiting else GameStatus.playing) := by
  have hb : (create_game mode pid).board = create_initial_board := rfl
  refine ⟨?_, ?_, ?_, ?_, ?_, ?_, ?_, ?_, rfl, rfl, rfl, rfl, ?_⟩
  · simp only [hb]; decide
  · simp only [hb]; decide
  · simp only [hb]; decide
  · simp only [hb]; decide
  · simp only [hb]; decide
  · simp only [hb]; decide
  · simp only [hb]; decide
  · simp only [hb]; decide
  · cases mode <;> rfl

/-- Witness for C9 (amended) at a concrete column of the local mode game. -/
theorem create_game_initial_state_witness :
    ((0 : Int) ∈ ([0, 1, 2, 6, 7, 8] : List Int)) ∧
    (pieceAt (create_game GameMode.local none).board 0 0 =
       some ⟨.attack, .blue⟩ ∧
     pieceAt (create_game GameMode.local none).board 9 0 =
       some ⟨.attack, .red⟩) :=
  ⟨by decide, (create_game_initial_state GameMode.local none).1 0 (by decide)⟩

/-! ## C8: the magic-alive flags are cleared exactly on capture, irreversibly -/

/-- finishTurn does not change the blue magic flag. -/
theorem finishTurn_blue_flag (g : GameState) (r : MoveResult) :
    (finishTurn g r).2.blue_magic_alive = g.blue_magic_alive :=
  (finishTurn_flags g r).1

/-- finishTurn does not change the red magic flag. -/
theorem finishTurn_red_flag (g : GameState) (r : MoveResult) :
    (finishTurn g r).2.red_magic_alive = g.red_magic_alive :=
  (finishTurn_flags g r).2

/-- The captured piece reported by an executed move is the piece that stood
on the destination cell. -/
theorem execValidMove_captured (g : GameState) (m : Move) (pc : Piece) :
    (execValidMove g m pc).1.captured =
      pieceAt g.board m.to_pos.1 m.to_pos.2 := by
  unfold execValidMove
  dsimp only
  repeat' split
  all_goals first
    | rfl
    | rw [finishTurn_fst_captured]

/-- The blue magic flag after an executed move, as a function of the
captured piece. -/
theorem execValidMove_blue_flag_eq (g : GameState) (m : Move) (pc : Piece) :
    (execValidMove g m pc).2.blue_magic_alive =
      (match pieceAt g.board m.to_pos.1 m.to_pos.2 with
        | some c => if c.piece_type = .magic ∧ c.team = .blue then false
                    else g.blue_magic_alive
        | none => g.blue_magic_alive) := by
  unfold execValidMove
  dsimp only
  repeat' split
  all_goals simp_all [finishTurn_blue_flag]

/-- The red magic flag after an executed move, as a function of the
captured piece. -/
theorem execValidMove_red_flag_eq (g : GameState) (m : Move) (pc : Piece) :
    (execValidMove g m pc).2.red_magic_alive =
      (match pieceAt g.board m.to_pos.1 m.to_pos.2 with
        | some c => if c.piece_type = .magic ∧ c.team = .red then false
                    else g.red_magic_alive
        | none => g.red_magic_alive) := by
  unfold execValidMove
  dsimp only
  repeat' split
  all_goals simp_all [finishTurn_red_flag]

/-- C8: a magic-alive flag is false after a call exactly when it was false
before or the call is an accepted move capturing that team Magic piece; a
single call flips at most one of the two flags; skip_second_move never
changes them.  In particular a false flag can never return to true, so the
flags are monotone along any sequence of operations. -/
theorem magic_alive_flags_monotone :
    (∀ (g : GameState) (m : Move) (pid : Option String),
      ((make_move g m pid).2.blue_magic_alive = false ↔
        (g.blue_magic_alive = false ∨
         ((make_move g m pid).1.success = true ∧
          (make_move g m pid).1.captured = some ⟨.magic, .blue⟩))) ∧
      ((make_move g m pid).2.red_magic_alive = false ↔
        (g.red_magic_alive = false ∨
         ((make_move g m pid).1.success = true ∧
          (make_move g m pid).1.captured = some ⟨.magic, .red⟩))) ∧
      ¬((make_move g m pid).2.blue_magic_alive ≠ g.blue_magic_alive ∧
        (make_move g m pid).2.red_magic_alive ≠ g.red_magic_alive)) ∧
    (∀ g : GameState,
      (skip_second_move g).2.blue_magic_alive = g.blue_magic_alive ∧
      (skip_second_move g).2.red_magic_alive = g.red_magic_alive) := by
  constructor
  · intro g m pid
    rcases make_move_eq_or g m pid with ⟨e, he⟩ | ⟨pc, _, he⟩
    · rw [he]
      dsimp [failRes]
      exact ⟨by simp, by simp, by simp⟩
    · rw [he, execValidMove_blue_flag_eq, execValidMove_red_flag_eq,
        execValidMove_captured, execValidMove_success]
      rcases hcap : pieceAt g.board m.to_pos.1 m.to_pos.2 with _ | ⟨pt, tm⟩
      · simp [hcap]
      · cases pt <;> cases tm <;> simp [hcap]
  · intro g
    by_cases hc : (g.red_double_move_active = false ∨ g.red_first_move_done = false) <;>
      simp [skip_second_move, hc]

/-- A small position for the C8 witness: a Red Attack piece one open file
below the Blue Magic piece, both Generals in their palaces. -/
def c8Board : Board :=
  [ [none, none, none, none, some ⟨.general, .blue⟩, none, none, none, none]
  , List.replicate 9 none
  , [none, none, none, none, some ⟨.magic, .blue⟩, none, none, none, none]
  , List.replicate 9 none
  , List.replicate 9 none
  , [none, none, none, none, some ⟨.attack, .red⟩, none, none, none, none]
  , List.replicate 9 none
  , List.replicate 9 none
  , List.replicate 9 none
  , [none, none, none, none, some ⟨.general, .red⟩, none, none, none, none] ]

/-- The game around c8Board. -/
def c8Game : GameState := { create_game .local none with board := c8Board }

/-- Witness for C8: capturing the Blue Magic piece clears the blue flag. -/
theorem magic_alive_flags_monotone_witness :
    (make_move c8Game ⟨(5, 4), (2, 4)⟩ none).2.blue_magic_alive = false :=
  (magic_alive_flags_monotone.1 c8Game ⟨(5, 4), (2, 4)⟩ none).1.mpr
    (Or.inr ⟨by decide, by decide⟩)

/-! ## C6: a dead Magic piece removes all retreating destinations -/

/-- A team whose magic flag is down cannot retreat. -/
theorem teamCanRetreat_false {t : Team} {bma rma : Bool}
    (h : (t = .blue ∧ bma = false) ∨ (t = .red ∧ rma = false)) :
    team_can_retreat t bma rma = false := by
  rcases h with ⟨h1, h2⟩ | ⟨h1, h2⟩ <;> subst h1 <;> subst h2 <;>
    simp [team_can_retreat]

/-- C6: when the magic flag of the team owning the piece is false, every
legal destination produced by get_valid_moves is neither backward (strictly
smaller row for Blue, strictly larger row for Red) nor diagonal-backward;
the filter acts on the raw per-type rule output before the turn-11
zone-freeze and second-move short-circuits, which can only empty the list
further. -/
theorem dead_magic_blocks_retreat (b : Board) (pos : Int × Int) (ct : Team)
    (bma rma : Bool) (turn : Nat) (sec : Bool) (frozen : List (Int × Int))
    (pc : Piece) (hpc : pieceAt b pos.1 pos.2 = some pc)
    (hdead : (pc.team = .blue ∧ bma = false) ∨ (pc.team = .red ∧ rma = false)) :
    ∀ m ∈ get_valid_moves b pos ct bma rma turn sec frozen,
      is_moving_backward pos m pc.team = false ∧
      is_moving_diagonal_backward pos m pc.team = false := by
  intro m hm
  unfold get_valid_moves at hm
  rw [hpc] at hm
  dsimp only at hm
  split at hm
  · exact absurd hm (by simp)
  split at hm
  · exact absurd hm (by simp)
  split at hm
  · exact absurd hm (by simp)
  split at hm
  · exact absurd hm (by simp)
  rw [teamCanRetreat_false hdead] at hm
  simp only [retreat_filter, Bool.false_eq_true, if_false, List.mem_filter,
    Bool.and_eq_true, Bool.not_eq_true'] at hm
  exact ⟨hm.2.1, hm.2.2⟩

/-- Witness for C6: with the red magic flag down, the red Attack piece of
c8Board still has its forward destination, which is not backward. -/
theorem dead_magic_blocks_retreat_witness :
    pieceAt c8Board 5 4 = some ⟨.attack, .red⟩ ∧
    ((4, 4) ∈ get_valid_moves c8Board (5, 4) Team.red true false 1 false []) ∧
    (is_moving_backward (5, 4) (4, 4) Team.red = false ∧
     is_moving_diagonal_backward (5, 4) (4, 4) Team.red = false) :=
  ⟨by decide, by decide,
   dead_magic_blocks_retreat c8Board (5, 4) .red true false 1 false []
     ⟨.attack, .red⟩ (by decide) (Or.inr ⟨rfl, rfl⟩) (4, 4) (by decide)⟩

/-! ## C5: characterization of is_general_in_check -/

/-- C5: is_general_in_check is true when the team General is absent;
otherwise it is true exactly when some enemy piece of type Attack, Defense
or Support (capture_moves is none on Magic and General, so they are never
counted) reaches the General position with its per-type rule destinations
filtered by the enemy team own retreat restriction. -/
theorem general_in_check_iff (b : Board) (team : Team) (bma rma : Bool) :
    (findGeneral b team = none → is_general_in_check b team bma rma = true) ∧
    (∀ gp, findGeneral b team = some gp →
      (is_general_in_check b team bma rma = true ↔
        ∃ (p : Int × Int) (pc : Piece) (ms : List (Int × Int)),
          pieceAt b p.1 p.2 = some pc ∧ pc.team = enemyOf team ∧
          capture_moves b p pc = some ms ∧
          gp ∈ retreat_filter ms p (enemyOf team)
            (team_can_retreat (enemyOf team) bma rma))) := by
  constructor
  · intro h
    unfold is_general_in_check
    rw [h]
  · intro gp hgp
    unfold is_general_in_check
    rw [hgp]
    dsimp only
    rw [List.any_eq_true]
    constructor
    · rintro ⟨p, hpmem, hpred⟩
      rcases hpc : pieceAt b p.1 p.2 with _ | pc
      · rw [hpc] at hpred
        exact absurd hpred (by simp)
      · rw [hpc] at hpred
        dsimp only at hpred
        by_cases ht : pc.team = enemyOf team
        · rw [if_pos ht] at hpred
          rcases hms : capture_moves b p pc with _ | ms
          · rw [hms] at hpred
            exact absurd hpred (by simp)
          · rw [hms] at hpred
            simp only [decide_eq_true_eq] at hpred
            exact ⟨p, pc, ms, hpc, ht, hms, hpred⟩
        · rw [if_neg ht] at hpred
          exact absurd hpred (by simp)
    · rintro ⟨p, pc, ms, hpc, ht, hms, hmem⟩
      refine ⟨p, mem_allPositions_of_pieceAt hpc, ?_⟩
      rw [hpc]
      dsimp only
      rw [if_pos ht, hms]
      simpa using hmem

/-- A position where the Blue General is attacked along an open file, for
the C5 witness. -/
def c5Board : Board :=
  [ [none, none, none, none, some ⟨.general, .blue⟩, none, none, none, none]
  , List.replicate 9 none
  , [none, none, none, none, some ⟨.attack, .red⟩, none, none, none, none]
  , List.replicate 9 none
  , List.replicate 9 none
  , List.replicate 9 none
  , List.replicate 9 none
  , List.replicate 9 none
  , List.replicate 9 none
  , [none, none, none, none, some ⟨.general, .red⟩, none, none, none, none] ]

/-- Witness for C5: the red Attack piece on the open file puts the Blue
General in check. -/
theorem general_in_check_iff_witness :
    findGeneral c5Board Team.blue = some (0, 4) ∧
    is_general_in_check c5Board Team.blue true true = true :=
  ⟨by decide,
   ((general_in_check_iff c5Board Team.blue true true).2 (0, 4) (by decide)).mpr
     ⟨(2, 4), ⟨.attack, .red⟩,
      get_attack_moves c5Board (2, 4) ⟨.attack, .red⟩,
      by decide, by decide, by decide, by decide⟩⟩

/-! ## C1: characterization of is_checkmate -/

/-- C1: is_checkmate is false when the team is not in check, and otherwise
true exactly when every piece of the team and every legal destination of
that piece (move generator with is_second_move false and the given frozen
positions) leaves the team General in check on the hypothetical board with
the source emptied and the destination overwritten, evaluated with the
same, unchanged magic-alive flags. -/
theorem checkmate_iff (b : Board) (team : Team) (bma rma : Bool)
    (turn : Nat) (frozen : List (Int × Int)) :
    is_checkmate b team bma rma turn frozen = true ↔
      (is_general_in_check b team bma rma = true ∧
       ∀ (src : Int × Int) (pc : Piece),
         pieceAt b src.1 src.2 = some pc → pc.team = team →
         ∀ dst ∈ get_valid_moves b src team bma rma turn false frozen,
           is_general_in_check (hypoBoard b src dst) team bma rma = true) := by
  unfold is_checkmate
  cases hichk : is_general_in_check b team bma rma with
  | false =>
    simp
  | true =>
    rw [if_neg (by simp)]
    simp only [true_and, Bool.not_eq_true']
    rw [List.any_eq_false]
    constructor
    · intro h src pc hpc hteam dst hdst
      have hsrc := h src (mem_allPositions_of_pieceAt hpc)
      rw [hpc] at hsrc
      dsimp only at hsrc
      rw [if_pos hteam] at hsrc
      rw [Bool.not_eq_true] at hsrc
      have hall := List.any_eq_false.1 hsrc dst hdst
      rw [Bool.not_eq_true, Bool.not_eq_false'] at hall
      exact hall
    · intro h src _
      rcases hpc : pieceAt b src.1 src.2 with _ | pc
      · simp
      · dsimp only
        by_cases hteam : pc.team = team
        · rw [if_pos hteam]
          simp only [Bool.not_eq_true]
          rw [List.any_eq_false]
          intro dst hdst
          have := h src pc hpc hteam dst hdst
          simp [this]
        · rw [if_neg hteam]
          simp

/-- A checkmate of the Red General trapped in the palace corner by three
Blue Attack pieces on open files, for the C1 witness. -/
def c1Board : Board :=
  [ [none, none, none, none, some ⟨.general, .blue⟩, none, none, none, none]
  , List.replicate 9 none
  , List.replicate 9 none
  , List.replicate 9 none
  , List.replicate 9 none
  , [none, none, none, some ⟨.attack, .blue⟩, some ⟨.attack, .blue⟩,
     some ⟨.attack, .blue⟩, none, none, none]
  , List.replicate 9 none
  , List.replicate 9 none
  , List.replicate 9 none
  , [none, none, none, none, some ⟨.general, .red⟩, none, none, none, none] ]

/-- Witness for C1: the characterization applied to a real checkmate of the
Red General recovers that Red is in check there. -/
theorem checkmate_iff_witness :
    is_general_in_check c1Board Team.red true true = true :=
  ((checkmate_iff c1Board Team.red true true 1 []).mp (by decide)).1

/-! ## C7: the Attack piece ray rules -/

/-- Every cell produced by rayWalk lies on the ray from its start. -/
theorem rayWalk_shape (b : Board) (t : Team) (cc : Bool) :
    ∀ (fuel : Nat) (start d m : Int × Int),
      m ∈ rayWalk b t cc fuel start d →
      ∃ k : Nat, m = (start.1 + (k : Int) * d.1, start.2 + (k : Int) * d.2) := by
  intro fuel
  induction fuel with
  | zero =>
    intro start d m hm
    simp [rayWalk] at hm
  | succ f ih =>
    intro start d m hm
    rw [rayWalk] at hm
    split at hm
    · split at hm
      · rcases List.mem_cons.1 hm with h0 | htail
        · exact ⟨0, by simp [h0]⟩
        · obtain ⟨k, hk⟩ := ih (start.1 + d.1, start.2 + d.2) d m htail
          refine ⟨k + 1, ?_⟩
          rw [hk]
          dsimp only
          rw [Prod.mk.injEq]
          constructor <;> push_cast <;> ring
      · split at hm
        · rcases List.mem_singleton.1 hm with h0
          exact ⟨0, by simp [h0]⟩
        · simp at hm
    · simp at hm

/-- A ray walked without capture rights contains only empty cells. -/
theorem rayWalk_no_capture (b : Board) (t : Team) :
    ∀ (fuel : Nat) (start d m : Int × Int),
      m ∈ rayWalk b t false fuel start d → pieceAt b m.1 m.2 = none := by
  intro fuel
  induction fuel with
  | zero =>
    intro start d m hm
    simp [rayWalk] at hm
  | succ f ih =>
    intro start d m hm
    rw [rayWalk] at hm
    split at hm
    · split at hm
      case _ hempty =>
        rcases List.mem_cons.1 hm with h0 | htail
        · rw [h0]
          exact hempty
        · exact ih (start.1 + d.1, start.2 + d.2) d m htail
      case _ =>
        simp at hm
    · simp at hm

/-- A cell on the ray is produced by the walk when every earlier cell of
the ray is valid and empty and the cell itself is valid and either empty or
an enemy piece reachable under the capture flag. -/
theorem rayWalk_reach (b : Board) (t : Team) (cc : Bool) :
    ∀ (k fuel : Nat) (start d : Int × Int),
      k < fuel →
      (∀ i : Nat, i < k →
        is_valid_position (start.1 + (i : Int) * d.1) (start.2 + (i : Int) * d.2) = true ∧
        pieceAt b (start.1 + (i : Int) * d.1) (start.2 + (i : Int) * d.2) = none) →
      is_valid_position (start.1 + (k : Int) * d.1) (start.2 + (k : Int) * d.2) = true →
      (pieceAt b (start.1 + (k : Int) * d.1) (start.2 + (k : Int) * d.2) = none ∨
       (cc = true ∧ ∃ tp, pieceAt b (start.1 + (k : Int) * d.1) (start.2 + (k : Int) * d.2) = some tp ∧
         (tp.team = t → False))) →
      (start.1 + (k : Int) * d.1, start.2 + (k : Int) * d.2) ∈
        rayWalk b t cc fuel start d := by
  intro k
  induction k with
  | zero =>
    intro fuel start d hfuel _ hvalid hend
    obtain ⟨f, rfl⟩ : ∃ f, fuel = f + 1 := ⟨fuel - 1, by omega⟩
    rw [rayWalk]
    simp only [Nat.cast_zero, zero_mul, add_zero] at hvalid hend ⊢
    rw [if_pos hvalid]
    rcases hend with hempty | ⟨hcc, tp, htp, hteam⟩
    · simp [hempty]
    · have hne : tp.team ≠ t := hteam
      simp [htp, hcc, hne]
  | succ j ih =>
    intro fuel start d hfuel hrun hvalid hend
    obtain ⟨f, rfl⟩ : ∃ f, fuel = f + 1 := ⟨fuel - 1, by omega⟩
    rw [rayWalk]
    have h0 := hrun 0 (by omega)
    simp only [Nat.cast_zero, zero_mul, add_zero] at h0
    rw [if_pos h0.1, h0.2]
    dsimp only
    have harith : ∀ i : Nat,
        ((start.1 + d.1) + (i : Int) * d.1, (start.2 + d.2) + (i : Int) * d.2) =
        (start.1 + ((i + 1 : Nat) : Int) * d.1, start.2 + ((i + 1 : Nat) : Int) * d.2) := by
      intro i
      rw [Prod.mk.injEq]
      constructor <;> push_cast <;> ring
    refine List.mem_cons_of_mem _ ?_
    have hmem := ih f (start.1 + d.1, start.2 + d.2) d (by omega) ?_ ?_ ?_
    · have := harith j
      dsimp only at this hmem
      rw [Prod.mk.injEq] at this
      rw [this.1, this.2] at hmem
      exact hmem
    · intro i hi
      have := hrun (i + 1) (by omega)
      have ha := harith i
      rw [Prod.mk.injEq] at ha
      dsimp only
      rw [ha.1, ha.2]
      exact this
    · have ha := harith j
      rw [Prod.mk.injEq] at ha
      dsimp only
      rw [ha.1, ha.2]
      exact hvalid
    · have ha := harith j
      rw [Prod.mk.injEq] at ha
      dsimp only
      rw [ha.1, ha.2]
      exact hend

/-- Componentwise description of the four orthogonal directions. -/
theorem dirsOrtho_cases {d : Int × Int} (hd : d ∈ dirsOrtho) :
    (d.1 = -1 ∧ d.2 = 0) ∨ (d.1 = 1 ∧ d.2 = 0) ∨
    (d.1 = 0 ∧ d.2 = -1) ∨ (d.1 = 0 ∧ d.2 = 1) := by
  simp only [dirsOrtho, List.mem_cons, List.mem_singleton] at hd
  rcases hd with rfl | rfl | rfl | (rfl | h)
  · exact Or.inl ⟨rfl, rfl⟩
  · exact Or.inr (Or.inl ⟨rfl, rfl⟩)
  · exact Or.inr (Or.inr (Or.inl ⟨rfl, rfl⟩))
  · exact Or.inr (Or.inr (Or.inr ⟨rfl, rfl⟩))
  · exact absurd h (by simp)

/-- Every cell of an orthogonal segment between two valid cells is valid. -/
theorem segment_valid (pos d : Int × Int) (hd : d ∈ dirsOrtho) (k i : Nat)
    (hik : i ≤ k)
    (h0 : is_valid_position pos.1 pos.2 = true)
    (hk : is_valid_position (pos.1 + (k : Int) * d.1) (pos.2 + (k : Int) * d.2) = true) :
    is_valid_position (pos.1 + (i : Int) * d.1) (pos.2 + (i : Int) * d.2) = true := by
  rcases dirsOrtho_cases hd with ⟨h1, h2⟩ | ⟨h1, h2⟩ | ⟨h1, h2⟩ | ⟨h1, h2⟩ <;>
    rw [h1, h2] at hk ⊢ <;>
    simp only [is_valid_position, decide_eq_true_eq] at h0 hk ⊢ <;>
    omega

/-- An orthogonal segment between valid cells is shorter than the ray fuel. -/
theorem segment_fuel (pos d : Int × Int) (hd : d ∈ dirsOrtho) (k : Nat)
    (h0 : is_valid_position pos.1 pos.2 = true)
    (hk : is_valid_position (pos.1 + (k : Int) * d.1) (pos.2 + (k : Int) * d.2) = true) :
    k < 16 := by
  rcases dirsOrtho_cases hd with ⟨h1, h2⟩ | ⟨h1, h2⟩ | ⟨h1, h2⟩ | ⟨h1, h2⟩ <;>
    rw [h1, h2] at hk <;>
    simp only [is_valid_position, decide_eq_true_eq] at h0 hk <;>
    omega

/-- A cell at distance k along an orthogonal ray, with the strictly closer
ray cells empty, is an attack move whenever it is empty or (on a
capture-capable ray) holds an enemy piece. -/
theorem attack_ray_mem (b : Board) (pos : Int × Int) (pc : Piece)
    (d : Int × Int) (hd : d ∈ dirsOrtho) (k : Nat) (hk1 : 1 ≤ k)
    (hpos : is_valid_position pos.1 pos.2 = true)
    (hrun : ∀ i : Nat, 1 ≤ i → i < k →
      pieceAt b (pos.1 + (i : Int) * d.1) (pos.2 + (i : Int) * d.2) = none)
    (hvalid : is_valid_position (pos.1 + (k : Int) * d.1) (pos.2 + (k : Int) * d.2) = true)
    (hend : pieceAt b (pos.1 + (k : Int) * d.1) (pos.2 + (k : Int) * d.2) = none ∨
      ((d.2 == 0) = true ∧
       ∃ tp, pieceAt b (pos.1 + (k : Int) * d.1) (pos.2 + (k : Int) * d.2) = some tp ∧
         (tp.team = pc.team → False))) :
    (pos.1 + (k : Int) * d.1, pos.2 + (k : Int) * d.2) ∈ get_attack_moves b pos pc := by
  unfold get_attack_moves
  refine List.mem_flatMap.2 ⟨d, hd, ?_⟩
  obtain ⟨j, rfl⟩ : ∃ j, k = j + 1 := ⟨k - 1, by omega⟩
  have harith : ∀ i : Nat,
      (pos.1 + d.1 + (i : Int) * d.1 = pos.1 + ((i + 1 : Nat) : Int) * d.1) ∧
      (pos.2 + d.2 + (i : Int) * d.2 = pos.2 + ((i + 1 : Nat) : Int) * d.2) := by
    intro i
    constructor <;> push_cast <;> ring
  have hmem := rayWalk_reach b pc.team (d.2 == 0) j 16
    (pos.1 + d.1, pos.2 + d.2) d
    (by have := segment_fuel pos d hd (j + 1) hpos hvalid; omega)
    ?_ ?_ ?_
  · dsimp only at hmem
    rw [(harith j).1, (harith j).2] at hmem
    exact hmem
  · intro i hij
    dsimp only
    rw [(harith i).1, (harith i).2]
    refine ⟨segment_valid pos d hd (j + 1) (i + 1) (by omega) hpos hvalid, ?_⟩
    exact hrun (i + 1) (by omega) (by omega)
  · dsimp only
    rw [(harith j).1, (harith j).2]
    exact hvalid
  · dsimp only
    rw [(harith j).1, (harith j).2]
    exact hend

/-- C7: attack-move destinations (a) on the same row as the source are
never occupied (no horizontal captures, friend or foe); (b) the first
enemy-occupied cell along a vertical ray (all strictly closer cells of the
ray empty) is always included; (c) an empty valid cell along any orthogonal
ray whose strictly closer ray cells are all empty is always included. -/
theorem attack_moves_spec :
    (∀ (b : Board) (pos : Int × Int) (pc : Piece) (m : Int × Int),
      m ∈ get_attack_moves b pos pc → m.1 = pos.1 →
      pieceAt b m.1 m.2 = none) ∧
    (∀ (b : Board) (pos : Int × Int) (pc : Piece) (d : Int × Int),
      pieceAt b pos.1 pos.2 = some pc →
      (d = (-1, 0) ∨ d = (1, 0)) →
      ∀ k : Nat, 1 ≤ k →
      (∀ i : Nat, 1 ≤ i → i < k →
        pieceAt b (pos.1 + (i : Int) * d.1) (pos.2 + (i : Int) * d.2) = none) →
      is_valid_position (pos.1 + (k : Int) * d.1) (pos.2 + (k : Int) * d.2) = true →
      ∀ tp : Piece,
        pieceAt b (pos.1 + (k : Int) * d.1) (pos.2 + (k : Int) * d.2) = some tp →
        tp.team ≠ pc.team →
        (pos.1 + (k : Int) * d.1, pos.2 + (k : Int) * d.2) ∈
          get_attack_moves b pos pc) ∧
    (∀ (b : Board) (pos : Int × Int) (pc : Piece) (d : Int × Int),
      pieceAt b pos.1 pos.2 = some pc →
      d ∈ dirsOrtho →
      ∀ k : Nat, 1 ≤ k →
      (∀ i : Nat, 1 ≤ i → i < k →
        pieceAt b (pos.1 + (i : Int) * d.1) (pos.2 + (i : Int) * d.2) = none) →
      is_valid_position (pos.1 + (k : Int) * d.1) (pos.2 + (k : Int) * d.2) = true →
      pieceAt b (pos.1 + (k : Int) * d.1) (pos.2 + (k : Int) * d.2) = none →
      (pos.1 + (k : Int) * d.1, pos.2 + (k : Int) * d.2) ∈
        get_attack_moves b pos pc) := by
  refine ⟨?_, ?_, ?_⟩
  · intro b pos pc m hm hrow
    unfold get_attack_moves at hm
    obtain ⟨d, hd, hray⟩ := List.mem_flatMap.1 hm
    rcases dirsOrtho_cases hd with ⟨h1, h2⟩ | ⟨h1, h2⟩ | ⟨h1, h2⟩ | ⟨h1, h2⟩
    · obtain ⟨k, hk⟩ := rayWalk_shape b pc.team _ 16 (pos.1 + d.1, pos.2 + d.2) d m hray
      exfalso
      rw [hk] at hrow
      dsimp only at hrow
      rw [h1] at hrow
      omega
    · obtain ⟨k, hk⟩ := rayWalk_shape b pc.team _ 16 (pos.1 + d.1, pos.2 + d.2) d m hray
      exfalso
      rw [hk] at hrow
      dsimp only at hrow
      rw [h1] at hrow
      omega
    · have hcc : (d.2 == 0) = false := by rw [h2]; rfl
      rw [hcc] at hray
      exact rayWalk_no_capture b pc.team 16 _ d m hray
    · have hcc : (d.2 == 0) = false := by rw [h2]; rfl
      rw [hcc] at hray
      exact rayWalk_no_capture b pc.team 16 _ d m hray
  · intro b pos pc d hpc hvert k hk1 hrun hvalid tp htp hteam
    have hd : d ∈ dirsOrtho := by
      rcases hvert with rfl | rfl <;> simp [dirsOrtho]
    have hcc : (d.2 == 0) = true := by
      rcases hvert with rfl | rfl <;> rfl
    exact attack_ray_mem b pos pc d hd k hk1 (pieceAt_valid hpc) hrun hvalid
      (Or.inr ⟨hcc, tp, htp, fun h => hteam h⟩)
  · intro b pos pc d hpc hd k hk1 hrun hvalid hempty
    exact attack_ray_mem b pos pc d hd k hk1 (pieceAt_valid hpc) hrun hvalid
      (Or.inl hempty)

/-- Witness for C7 on c8Board: a same-row destination of the red Attack
piece is empty, the first enemy blocker up its file (the Blue Magic piece
three cells up) is a move, and the adjacent empty cell up is a move. -/
theorem attack_moves_spec_witness :
    pieceAt c8Board 5 0 = none ∧
    ((2 : Int), (4 : Int)) ∈ get_attack_moves c8Board (5, 4) ⟨.attack, .red⟩ ∧
    ((4 : Int), (4 : Int)) ∈ get_attack_moves c8Board (5, 4) ⟨.attack, .red⟩ := by
  refine ⟨?_, ?_, ?_⟩
  · exact attack_moves_spec.1 c8Board (5, 4) ⟨.attack, .red⟩ (5, 0)
      (by decide) (by decide)
  · have h := attack_moves_spec.2.1 c8Board (5, 4) ⟨.attack, .red⟩ (-1, 0)
      (by decide) (Or.inl rfl) 3 (by omega)
      (by intro i h1 h2; interval_cases i <;> decide)
      (by decide) ⟨.magic, .blue⟩ (by decide) (by decide)
    exact h
  · have h := attack_moves_spec.2.2 c8Board (5, 4) ⟨.attack, .red⟩ (-1, 0)
      (by decide) (by decide) 1 (by omega)
      (by intro i h1 h2; omega)
      (by decide) (by decide)
    exact h

/-! ## C3 and C4: the capture and turn-advance paths of make_move -/

/-- A make_move call that passes every validation (game playing, piece at
the source, right team, right second-move piece, legal destination) reduces
to the execution stage. -/
theorem make_move_eq_exec (g : GameState) (m : Move) (pc : Piece)
    (h1 : g.status = .playing)
    (h2 : pieceAt g.board m.from_pos.1 m.from_pos.2 = some pc)
    (h3 : pc.team = g.current_team)
    (h4 : (g.red_first_move_done && g.red_double_move_active) = true →
          g.red_first_move_pos = some m.from_pos)
    (h5 : m.to_pos ∈ get_valid_moves g.board m.from_pos g.current_team
      g.blue_magic_alive g.red_magic_alive g.turn_number
      (g.red_first_move_done && g.red_double_move_active)
      (get_frozen_positions g)) :
    make_move g m none = execValidMove g m pc := by
  unfold make_move
  dsimp only
  rw [if_neg (by simp [h1])]
  rw [if_neg (by simp)]
  rw [h2]
  dsimp only
  rw [if_neg (by simp [h3])]
  rw [if_neg (fun hand => hand.2 (h4 hand.1))]
  rw [if_neg (not_not_intro h5)]

/-- C3: when an accepted move captures an enemy General, the result status
and the state status are the capturing team winning terminal state; no
second move is reported pending, and the final state is exactly the
relocation, flag, history and turn-switch effects with the double-move
sub-state cleared -- the turn-11 double-move evaluation and the checkmate
and stalemate checks are skipped (the conclusions are stated without any
reference to them, and the status can never be overwritten to a draw or to
the other team win in the same call). -/
theorem general_capture_ends_game (g : GameState) (m : Move) (pc : Piece)
    (gt : Team)
    (h1 : g.status = .playing)
    (h2 : pieceAt g.board m.from_pos.1 m.from_pos.2 = some pc)
    (h3 : pc.team = g.current_team)
    (h4 : (g.red_first_move_done && g.red_double_move_active) = true →
          g.red_first_move_pos = some m.from_pos)
    (h5 : m.to_pos ∈ get_valid_moves g.board m.from_pos g.current_team
      g.blue_magic_alive g.red_magic_alive g.turn_number
      (g.red_first_move_done && g.red_double_move_active)
      (get_frozen_positions g))
    (hcap : pieceAt g.board m.to_pos.1 m.to_pos.2 = some ⟨.general, gt⟩)
    (henemy : gt ≠ g.current_team) :
    (make_move g m none).1.success = true ∧
    (make_move g m none).1.game_status =
      some (if g.current_team = Team.blue then GameStatus.blueWin
            else GameStatus.redWin) ∧
    (make_move g m none).1.waiting_second_move = false ∧
    (make_move g m none).1.double_move = false ∧
    (make_move g m none).2.status =
      (if g.current_team = Team.blue then GameStatus.blueWin
       else GameStatus.redWin) ∧
    (make_move g m none).2.board =
      setCell (setCell g.board m.to_pos (some pc)) m.from_pos none ∧
    (make_move g m none).2.blue_magic_alive = g.blue_magic_alive ∧
    (make_move g m none).2.red_magic_alive = g.red_magic_alive ∧
    (make_move g m none).2.current_team =
      (if g.current_team = Team.red then Team.blue else Team.red) ∧
    (make_move g m none).2.turn_number =
      (if g.current_team = Team.red then g.turn_number
       else g.turn_number + 1) ∧
    (make_move g m none).2.red_double_move_active = false ∧
    (make_move g m none).2.red_first_move_done = false ∧
    (make_move g m none).2.red_first_move_pos = none ∧
    (make_move g m none).2.move_history =
      g.move_history ++
        [⟨g.turn_number, g.current_team, m, some ⟨.general, gt⟩⟩] := by
  rw [make_move_eq_exec g m pc h1 h2 h3 h4 h5]
  cases gt <;> cases hct : g.current_team <;>
    first
      | exact absurd hct (by rw [hct] at henemy; exact fun _ => henemy rfl)
      | simp [execValidMove, finishTurn, hcap, hct]

/-- C4: the turn-11 double move.  (1) On turn 11 with Red Magic alive, an
accepted Red move from the Red half to the Red half reports a pending
second move, keeps Red to move and keeps turn_number 11, recording the
landing square.  (2) While the second move is pending, a request for any
other piece is rejected with the state unchanged.  (3) The accepted second
move of the recorded piece hands the turn to Blue without changing
turn_number.  (4) An accepted Blue move then hands the turn back to Red and
increments turn_number. -/
theorem turn11_double_move :
    (∀ (g : GameState) (m : Move) (pc : Piece),
      g.status = .playing → g.current_team = .red → g.turn_number = 11 →
      g.red_magic_alive = true → g.red_first_move_done = false →
      pieceAt g.board m.from_pos.1 m.from_pos.2 = some pc →
      pc.team = .red →
      is_in_red_zone m.from_pos.1 = true → is_in_red_zone m.to_pos.1 = true →
      m.to_pos ∈ get_valid_moves g.board m.from_pos g.current_team
        g.blue_magic_alive g.red_magic_alive g.turn_number false
        (get_frozen_positions g) →
      (∀ q : Piece, pieceAt g.board m.to_pos.1 m.to_pos.2 = some q →
        q.team = .blue ∧ q.piece_type ≠ .general) →
      (make_move g m none).1.waiting_second_move = true ∧
      (make_move g m none).1.double_move = true ∧
      (make_move g m none).2.current_team = Team.red ∧
      (make_move g m none).2.turn_number = 11 ∧
      (make_move g m none).2.red_double_move_active = true ∧
      (make_move g m none).2.red_first_move_done = true ∧
      (make_move g m none).2.red_first_move_pos = some m.to_pos) ∧
    (∀ (g : GameState) (m : Move) (pc : Piece) (p0 : Int × Int),
      g.status = .playing →
      g.red_first_move_done = true → g.red_double_move_active = true →
      g.red_first_move_pos = some p0 → m.from_pos ≠ p0 →
      pieceAt g.board m.from_pos.1 m.from_pos.2 = some pc →
      pc.team = g.current_team →
      make_move g m none = (failRes .secondMoveWrongPiece, g)) ∧
    (∀ (g : GameState) (m : Move) (pc : Piece),
      g.status = .playing → g.current_team = .red →
      g.red_first_move_done = true → g.red_double_move_active = true →
      g.red_first_move_pos = some m.from_pos →
      pieceAt g.board m.from_pos.1 m.from_pos.2 = some pc →
      pc.team = .red →
      m.to_pos ∈ get_valid_moves g.board m.from_pos g.current_team
        g.blue_magic_alive g.red_magic_alive g.turn_number true
        (get_frozen_positions g) →
      (make_move g m none).1.waiting_second_move = false ∧
      (make_move g m none).2.current_team = Team.blue ∧
      (make_move g m none).2.turn_number = g.turn_number ∧
      (make_move g m none).2.red_double_move_active = false ∧
      (make_move g m none).2.red_first_move_done = false ∧
      (make_move g m none).2.red_first_move_pos = none) ∧
    (∀ (g : GameState) (m : Move) (pc : Piece),
      g.status = .playing → g.current_team = .blue →
      g.red_first_move_done = false →
      pieceAt g.board m.from_pos.1 m.from_pos.2 = some pc →
      pc.team = .blue →
      m.to_pos ∈ get_valid_moves g.board m.from_pos g.current_team
        g.blue_magic_alive g.red_magic_alive g.turn_number false
        (get_frozen_positions g) →
      (make_move g m none).2.current_team = Team.red ∧
      (make_move g m none).2.turn_number = g.turn_number + 1) := by
  refine ⟨?_, ?_, ?_, ?_⟩
  · intro g m pc h1 hct hturn hrma hfd h2 h3 hfrom hto h5 hsafe
    rw [make_move_eq_exec g m pc h1 h2 (by rw [h3, hct])
      (by intro h; rw [hfd] at h; simp at h)
      (by simpa [hfd] using h5)]
    unfold execValidMove
    dsimp only
    rcases hcapq : pieceAt g.board m.to_pos.1 m.to_pos.2 with _ | ⟨qt, qteam⟩
    · simp [hcapq, hct, hturn, hrma, hfd, hfrom, hto, h1]
    · obtain ⟨hqteam, hqgen⟩ := hsafe ⟨qt, qteam⟩ hcapq
      dsimp only at hqteam hqgen
      subst hqteam
      cases qt
      case general => exact absurd rfl hqgen
      all_goals simp [hcapq, hct, hturn, hrma, hfd, hfrom, hto, h1]
  · intro g m pc p0 h1 hdone hactive hpos0 hne h2 h3
    unfold make_move
    dsimp only
    rw [if_neg (by simp [h1])]
    rw [if_neg (by simp)]
    rw [h2]
    dsimp only
    rw [if_neg (by simp [h3])]
    rw [if_pos ⟨by rw [hdone, hactive]; rfl,
      by rw [hpos0]; simp; exact fun h => hne h.symm⟩]
  · intro g m pc h1 hct hdone hactive hpos0 h2 h3 h5
    rw [make_move_eq_exec g m pc h1 h2 (by rw [h3, hct])
      (fun _ => hpos0) (by simpa [hdone, hactive] using h5)]
    unfold execValidMove finishTurn
    dsimp only
    repeat' split
    all_goals simp_all [hct, hdone]
  · intro g m pc h1 hct hfd h2 h3 h5
    rw [make_move_eq_exec g m pc h1 h2 (by rw [h3, hct])
      (by intro h; rw [hfd] at h; simp at h)
      (by simpa [hfd] using h5)]
    unfold execValidMove finishTurn
    dsimp only
    repeat' split
    all_goals simp_all [hct]

/-- A position where the Red Attack piece can capture the Blue General, for
the C3 witness. -/
def c3Board : Board :=
  [ List.replicate 9 none
  , List.replicate 9 none
  , [none, none, none, none, some ⟨.general, .blue⟩, none, none, none, none]
  , List.replicate 9 none
  , List.replicate 9 none
  , [none, none, none, none, some ⟨.attack, .red⟩, none, none, none, none]
  , List.replicate 9 none
  , List.replicate 9 none
  , List.replicate 9 none
  , [none, none, none, none, some ⟨.general, .red⟩, none, none, none, none] ]

/-- The game around c3Board. -/
def c3Game : GameState := { create_game .local none with board := c3Board }

/-- Witness for C3: capturing the Blue General ends the game as a Red win. -/
theorem general_capture_ends_game_witness :
    (make_move c3Game ⟨(5, 4), (2, 4)⟩ none).1.success = true ∧
    (make_move c3Game ⟨(5, 4), (2, 4)⟩ none).2.status = GameStatus.redWin := by
  have h := general_capture_ends_game c3Game ⟨(5, 4), (2, 4)⟩ ⟨.attack, .red⟩
    Team.blue (by decide) (by decide) (by decide) (by decide) (by decide)
    (by decide) (by decide)
  exact ⟨h.1, h.2.2.2.2.1⟩

/-- The turn-11 state for the C4 witness: the initial board with the turn
counter at 11 and Red to move. -/
def gameT11 : GameState := { create_game .local none with turn_number := 11 }

/-- The state after the first half of the double move (Red Attack piece
from the back rank one step up, still inside the Red half). -/
def gameT11b : GameState := (make_move gameT11 ⟨(9, 0), (8, 0)⟩ none).2

/-- The state after the completed double move, with Blue to move. -/
def gameT11d : GameState := (make_move gameT11b ⟨(8, 0), (9, 0)⟩ none).2

/-- Witness for C4: the concrete double-move episode on the initial board
at turn 11, with the wrong-piece rejection in the middle. -/
theorem turn11_double_move_witness :
    ((make_move gameT11 ⟨(9, 0), (8, 0)⟩ none).1.waiting_second_move = true ∧
     (make_move gameT11 ⟨(9, 0), (8, 0)⟩ none).2.current_team = Team.red ∧
     (make_move gameT11 ⟨(9, 0), (8, 0)⟩ none).2.turn_number = 11) ∧
    make_move gameT11b ⟨(9, 1), (8, 1)⟩ none =
      (failRes .secondMoveWrongPiece, gameT11b) ∧
    ((make_move gameT11b ⟨(8, 0), (9, 0)⟩ none).2.current_team = Team.blue ∧
     (make_move gameT11b ⟨(8, 0), (9, 0)⟩ none).2.turn_number = 11) ∧
    ((make_move gameT11d ⟨(0, 0), (1, 0)⟩ none).2.current_team = Team.red ∧
     (make_move gameT11d ⟨(0, 0), (1, 0)⟩ none).2.turn_number = 12) := by
  refine ⟨?_, ?_, ?_, ?_⟩
  · have h := turn11_double_move.1 gameT11 ⟨(9, 0), (8, 0)⟩ ⟨.attack, .red⟩
      (by decide) (by decide) (by decide) (by decide) (by decide) (by decide)
      (by decide) (by decide) (by decide) (by decide)
      (by intro q hq
          rw [show pieceAt gameT11.board 8 0 = none from by decide] at hq
          exact absurd hq (by simp))
    exact ⟨h.1, h.2.2.1, h.2.2.2.1⟩
  · exact turn11_double_move.2.1 gameT11b ⟨(9, 1), (8, 1)⟩ ⟨.attack, .red⟩
      (8, 0) (by decide) (by decide) (by decide) (by decide) (by decide)
      (by decide) (by decide)
  · have h := turn11_double_move.2.2.1 gameT11b ⟨(8, 0), (9, 0)⟩
      ⟨.attack, .red⟩ (by decide) (by decide) (by decide) (by decide)
      (by decide) (by decide) (by decide) (by decide)
    exact ⟨h.2.1, h.2.2.1⟩
  · have h := turn11_double_move.2.2.2 gameT11d ⟨(0, 0), (1, 0)⟩
      ⟨.attack, .blue⟩ (by decide) (by decide) (by decide) (by decide)
      (by decide) (by decide)
    exact h
